import Mathlib

/-!
Shallow embedding of the event lifecycle and participation aggregation logic
of the w3-hyperlocal repository (src/app/app.py and
src/app/jobs/event_status_updater.py), together with theorems checking the
natural-language specification's claims against it.

Conventions of the embedding:
* machine integers and Python ints are `Nat` / `Int`;
* a `datetime` instant is the number of seconds since 0001-01-01 00:00:00
  (proleptic Gregorian calendar, the calendar used by Python's `datetime`);
* string processing is done structurally on `List Char` (`String.data`), so
  that every definition evaluates inside the kernel;
* fallible Python code (code that can raise) is embedded in `Except String`;
* database tables are lists of records, and the supabase query builders used
  by the source (`eq`, `in_`, `update`, `insert`) become list operations.
-/

set_option autoImplicit false

namespace W3

/-! ## Python string primitives used by the source -/

/-- `str.split(sep)` for a one-character separator: `''.split(':') = ['']`,
`'a::b'.split(':') = ['a', '', 'b']`. -/
def splitChar (c : Char) : List Char → List (List Char)
  | [] => [[]]
  | x :: xs =>
    let r := splitChar c xs
    if x = c then [] :: r
    else
      match r with
      | [] => [[x]]
      | y :: ys => (x :: y) :: ys

def allDigits (l : List Char) : Bool :=
  l.all Char.isDigit

/-- Value of a nonempty all-digit character list. -/
def digitsVal (l : List Char) : Nat :=
  l.foldl (fun a c => 10 * a + (c.toNat - 48)) 0

/-- Python's `int(s)` on a string: an optional single sign followed by
digits.  (Python additionally tolerates surrounding whitespace and inner
underscores; those fringes are not exercised by the repository's data and
are not modelled.)  Returns `none` where Python raises `ValueError`. -/
def pyInt : List Char → Option Int
  | [] => none
  | '-' :: rest =>
    if rest ≠ [] && allDigits rest then some (-(digitsVal rest : Int)) else none
  | '+' :: rest =>
    if rest ≠ [] && allDigits rest then some ((digitsVal rest : Int)) else none
  | l =>
    if allDigits l then some ((digitsVal l : Int)) else none

/-- Python truthiness of an optional string: `None` and `''` are falsy. -/
def truthy : Option String → Bool
  | none => false
  | some s => s.data ≠ []

/-- Python `str` ordering (lexicographic on code points), total on strings. -/
def pyStrLt : List Char → List Char → Bool
  | [], [] => false
  | [], _ :: _ => true
  | _ :: _, [] => false
  | a :: as, b :: bs =>
    if a.toNat < b.toNat then true
    else if b.toNat < a.toNat then false
    else pyStrLt as bs

/-! ## Calendar arithmetic (the part of `datetime` the source relies on) -/

def isLeap (y : Nat) : Bool :=
  y % 4 == 0 && (y % 100 != 0 || y % 400 == 0)

def daysInMonth (y m : Nat) : Nat :=
  if m == 2 then (if isLeap y then 29 else 28)
  else if m == 4 || m == 6 || m == 9 || m == 11 then 30
  else 31

def daysBeforeMonth (y m : Nat) : Nat :=
  (List.range (m - 1)).foldl (fun acc i => acc + daysInMonth y (i + 1)) 0

/-- Day count of a (year, month, day) triple in the proleptic Gregorian
calendar, with 0001-01-01 as day 0 (`datetime.date.toordinal` minus 1). -/
def dayNumber : Nat × Nat × Nat → Nat
  | (y, m, d) =>
    365 * (y - 1) + (y - 1) / 4 - (y - 1) / 100 + (y - 1) / 400
      + daysBeforeMonth y m + (d - 1)

/-- The instant (seconds since 0001-01-01 00:00:00) of a calendar date
combined with a wall-clock time. -/
def mkInstant (ymd : Nat × Nat × Nat) (h mi s : Nat) : Nat :=
  86400 * dayNumber ymd + 3600 * h + 60 * mi + s

/-- Convenience: the instant of `y-m-d h:mi:s`, used for concrete inputs. -/
def instAt (y m d h mi s : Nat) : Nat :=
  mkInstant (y, m, d) h mi s

/-- A 1-2 digit numeric token (what strptime's `%m`, `%d`, `%H`, `%M`, `%S`
directives match). -/
def twoDigitTok (l : List Char) : Bool :=
  decide (1 ≤ l.length) && decide (l.length ≤ 2) && allDigits l

/-- `datetime.strptime(s, '%Y-%m-%d').date()`.  The `%Y` directive matches
exactly four digits, `%m` and `%d` match one or two digits, and the
constructed date must be a real calendar date (month 1-12, day within the
month, year at least 1).  Any failure raises `ValueError`, surfaced here as
`MalformedDateError` (the spec's name for this failure). -/
def validYMD (y m d : Nat) : Bool :=
  decide (1 ≤ y) && decide (1 ≤ m) && decide (m ≤ 12)
    && decide (1 ≤ d) && decide (d ≤ daysInMonth y m)

def parseDate (s : String) : Except String (Nat × Nat × Nat) :=
  match splitChar '-' s.data with
  | [ys, ms, ds] =>
    if decide (ys.length = 4) && allDigits ys && twoDigitTok ms
        && twoDigitTok ds then
      if validYMD (digitsVal ys) (digitsVal ms) (digitsVal ds) then
        .ok (digitsVal ys, digitsVal ms, digitsVal ds)
      else .error "MalformedDateError"
    else .error "MalformedDateError"
  | _ => .error "MalformedDateError"

/-- `datetime.time(h, mi, s)`: raises `ValueError` unless
`0 ≤ h ≤ 23`, `0 ≤ mi ≤ 59`, `0 ≤ s ≤ 59`.  Failures are surfaced as
`MalformedTimeError` (the spec's name). -/
def mkTime (h mi s : Int) : Except String (Nat × Nat × Nat) :=
  if 0 ≤ h && h ≤ 23 && 0 ≤ mi && mi ≤ 59 && 0 ≤ s && s ≤ 59 then
    .ok (h.toNat, mi.toNat, s.toNat)
  else .error "MalformedTimeError"

/-! ## The sweep job's schedule resolution
(src/app/jobs/event_status_updater.py lines 60-73) -/

/-- The timed branch of the sweep's resolution, mirroring the source's
evaluation order: the colon-separated components are converted with `int()`
first (raising on non-numeric input), then the date is parsed with
`strptime`, then `time(hour, minute, second)` range-checks the components.
Minute and second default to 0 when absent; components past the third are
never read. -/
def resolveTimed (d t : String) : Except String Nat :=
  match pyInt ((splitChar ':' t.data).headD []) with
  | none => .error "MalformedTimeError"
  | some h =>
    match (if (splitChar ':' t.data).length > 1 then
        pyInt ((splitChar ':' t.data).getD 1 []) else some 0) with
    | none => .error "MalformedTimeError"
    | some mi =>
      match (if (splitChar ':' t.data).length > 2 then
          pyInt ((splitChar ':' t.data).getD 2 []) else some 0) with
      | none => .error "MalformedTimeError"
      | some s =>
        match parseDate d with
        | .error m => .error m
        | .ok ymd =>
          match mkTime h mi s with
          | .error m => .error m
          | .ok (hn, mn, sn) => .ok (mkInstant ymd hn mn sn)

/-- `TimeResolver.resolve` as implemented by the sweep job: a truthy
`scheduled_time` is parsed and combined with the date; otherwise (all-day
event) the effective instant is the end of the scheduled date, 23:59:59. -/
def resolveInstant (d : String) (t? : Option String) : Except String Nat :=
  if truthy t? then resolveTimed d (t?.getD "")
  else
    match parseDate d with
    | .error m => .error m
    | .ok ymd => .ok (mkInstant ymd 23 59 59)

/-! ## The cancel endpoint's schedule resolution
(src/app/app.py lines 365-376).  Unlike the sweep it parses the time with
`datetime.strptime(t, '%H:%M:%S')` (exactly three 1-2 digit components) and
resolves an absent time to `datetime.min.time()`, i.e. 00:00:00. -/

/-- `datetime.strptime(t, '%H:%M:%S').time()`. -/
def parseTimeStrict (t : String) : Except String (Nat × Nat × Nat) :=
  match splitChar ':' t.data with
  | [hs, ms, ss] =>
    if twoDigitTok hs && twoDigitTok ms && twoDigitTok ss then
      if decide (digitsVal hs ≤ 23) && decide (digitsVal ms ≤ 59)
          && decide (digitsVal ss ≤ 59) then
        .ok (digitsVal hs, digitsVal ms, digitsVal ss)
      else .error "MalformedTimeError"
    else .error "MalformedTimeError"
  | _ => .error "MalformedTimeError"

/-- The comparison instant built by `cancel_destination`: date combined with
the parsed time when `scheduled_time` is truthy, otherwise with
`datetime.min.time()` (start of day). -/
def cancelInstant (d : String) (t? : Option String) : Except String Nat :=
  match parseDate d with
  | .error m => .error m
  | .ok ymd =>
    if truthy t? then
      match parseTimeStrict (t?.getD "") with
      | .error m => .error m
      | .ok (h, mi, s) => .ok (mkInstant ymd h mi s)
    else .ok (mkInstant ymd 0 0 0)

/-! ## Data model (section 6 of the spec: persisted record shapes) -/

/-- A row of the `destinations` table.  Payload columns that play no role in
any modelled decision (latitude, longitude, created_at, ...) are omitted. -/
structure Event where
  id : Nat
  user_id : Nat
  place_name : String
  scheduled_date : String
  scheduled_time : Option String
  status : String
deriving DecidableEq, Repr

/-- A row of the `event_participants` table. -/
structure Participation where
  event_id : Nat
  user_id : Nat
  participation_type : String
deriving DecidableEq, Repr

/-- A row of the `users` table (the columns the modelled code reads). -/
structure UserRow where
  id : Nat
  name : Option String
  email : String
deriving DecidableEq, Repr

/-! ## The sweep job, `EventStatusUpdater.execute`
(src/app/jobs/event_status_updater.py lines 29-99) -/

/-- The sweep's per-event decision (the body of the loop at lines 46-76):
skip events whose snapshot status is `cancelled`, skip events with a falsy
`scheduled_date`, otherwise resolve the schedule — a parse failure raises,
which the source only catches at batch level — and transition exactly when
`now > event_datetime`. -/
inductive Decision where
  | noChange
  | transitionToPast
  | evalError (msg : String)
deriving DecidableEq, Repr

def evaluateExpiry (e : Event) (now : Nat) : Decision :=
  if e.status == "cancelled" then .noChange
  else if e.scheduled_date.data == [] then .noChange
  else
    match resolveInstant e.scheduled_date e.scheduled_time with
    | .error m => .evalError m
    | .ok dt => if now > dt then .transitionToPast else .noChange

/-- `supabase.table('destinations').update({'status': s}).eq('id', i)`:
every row whose id matches gets the new status. -/
def applyUpdate (tbl : List Event) (i : Nat) (s : String) : List Event :=
  tbl.map (fun x => if x.id == i then { x with status := s } else x)

/-- `supabase.table('destinations').select(...).eq('status', 'active')`. -/
def fetchActive (tbl : List Event) : List Event :=
  tbl.filter (fun e => e.status == "active")

/-- The sweep loop over the fetched snapshot.  Each `transitionToPast`
persists `status = 'past'` immediately and counts the update when the
update response matched a row; the first `evalError` aborts the loop (the
source has no per-event handler), discarding the running count but keeping
the updates already written. -/
def processEvents (now : Nat) : List Event → List Event → List Event × Except String Nat
  | [], tbl => (tbl, .ok 0)
  | e :: rest, tbl =>
    match evaluateExpiry e now with
    | .noChange => processEvents now rest tbl
    | .evalError m => (tbl, .error m)
    | .transitionToPast =>
      match processEvents now rest (applyUpdate tbl e.id "past") with
      | (t2, .ok n) =>
        (t2, .ok ((if tbl.any (fun x => x.id == e.id) then 1 else 0) + n))
      | (t2, .error m) => (t2, .error m)

/-- The result dictionary of `execute` (`data` keys become `Option`s: the
error return and the no-active-events return carry no `checked`). -/
structure Report where
  success : Bool
  message : String
  checked : Option Nat
  updated : Option Nat
deriving DecidableEq, Repr

/-- `EventStatusUpdater.execute` over the destinations table at instant
`now`: fetch the active snapshot, loop, and wrap the outcome exactly as the
source's return statements and batch-level `except` clause do. -/
def sweep (tbl : List Event) (now : Nat) : List Event × Report :=
  if (fetchActive tbl).isEmpty then
    (tbl, ⟨true, "No active events to check", none, some 0⟩)
  else
    match processEvents now (fetchActive tbl) tbl with
    | (t2, .ok n) =>
      (t2, ⟨true, "Updated " ++ toString n ++ " event(s) to past status",
            some (fetchActive tbl).length, some n⟩)
    | (t2, .error m) =>
      (t2, ⟨false, "Error updating event statuses: " ++ m, none, none⟩)

/-- The sweep's decision about a single event of the store: events that the
`status == 'active'` fetch filter excludes are never examined, fetched
events go through the loop body `evaluateExpiry`. -/
def sweepDecision (e : Event) (now : Nat) : Decision :=
  if e.status == "active" then evaluateExpiry e now else .noChange

/-! Pure descriptions of the loop, used to reason about `processEvents`:
the ids it updates and the first error it hits depend only on the fetched
snapshot. -/

def updIds (now : Nat) : List Event → List Nat
  | [] => []
  | e :: rest =>
    match evaluateExpiry e now with
    | .noChange => updIds now rest
    | .evalError _ => []
    | .transitionToPast => e.id :: updIds now rest

def firstErr (now : Nat) : List Event → Option String
  | [] => none
  | e :: rest =>
    match evaluateExpiry e now with
    | .evalError m => some m
    | _ => firstErr now rest

def applyUpds (tbl : List Event) (ids : List Nat) : List Event :=
  ids.foldl (fun t i => applyUpdate t i "past") tbl

/-- Row-level view of a finished batch of updates. -/
def markPast (ids : List Nat) (x : Event) : Event :=
  if ids.contains x.id then { x with status := "past" } else x

/-! ## The cancel endpoint, `cancel_destination`
(src/app/app.py lines 342-384) -/

inductive CancelResult where
  /-- 404 `Destination not found` -/
  | notFound
  /-- 403 `Unauthorized` (requester is not the owner) -/
  | unauthorized
  /-- 400 `Destination is already cancelled` -/
  | alreadyCancelled
  /-- 400 `Cannot cancel past events` -/
  | pastEvent
  /-- 200, status updated to `cancelled` -/
  | success
  /-- 500, the `except` clause (a `ValueError` from date/time parsing) -/
  | serverError (msg : String)
deriving DecidableEq, Repr

/-- `cancel_destination(destination_id)` with session user `requester` at
instant `now`, acting on the destinations table.  The checks run in source
order: existence, ownership, already-cancelled, then the past-event check
on the comparison instant (start of day for all-day events), and only the
final branch writes to the store. -/
def cancelDestination (tbl : List Event) (destId requester now : Nat) :
    List Event × CancelResult :=
  match tbl.filter (fun e => e.id == destId) with
  | [] => (tbl, .notFound)
  | d :: _ =>
    if d.user_id != requester then (tbl, .unauthorized)
    else if d.status == "cancelled" then (tbl, .alreadyCancelled)
    else
      match cancelInstant d.scheduled_date d.scheduled_time with
      | .error m => (tbl, .serverError m)
      | .ok dt =>
        if dt < now then (tbl, .pastEvent)
        else (applyUpdate tbl destId "cancelled", .success)

/-! ## The participate endpoint, `participate_event`
(src/app/app.py lines 387-427) -/

inductive ParticipateResult where
  /-- 400 `Invalid participation type` -/
  | invalidType
  /-- 404 `Event not found` -/
  | notFound
  /-- 200, record created or updated -/
  | ok
deriving DecidableEq, Repr

/-- `participate_event(event_id)` for session user `uid` requesting kind
`t`: validate the kind, check the event exists, then update the matching
participation rows in place if any exist, else insert a new row. -/
def participateEvent (events : List Event) (parts : List Participation)
    (eid uid : Nat) (t : String) : List Participation × ParticipateResult :=
  if t != "joined" && t != "interested" then (parts, .invalidType)
  else if (events.filter (fun e => e.id == eid)).isEmpty then (parts, .notFound)
  else if (parts.filter (fun p => p.event_id == eid && p.user_id == uid)).isEmpty then
    (parts ++ [⟨eid, uid, t⟩], .ok)
  else
    (parts.map (fun p =>
      if p.event_id == eid && p.user_id == uid then
        { p with participation_type := t }
      else p), .ok)

/-- A sequence of participate requests `(event_id, user_id, kind)` applied
in order against a fixed destinations table. -/
def applyParticipations (events : List Event)
    (parts : List Participation) : List (Nat × Nat × String) → List Participation
  | [] => parts
  | r :: rs =>
    applyParticipations events (participateEvent events parts r.1 r.2.1 r.2.2).1 rs

/-- Number of participation rows for the pair `(e, u)`. -/
def pairCount (parts : List Participation) (e u : Nat) : Nat :=
  parts.countP (fun p => p.event_id == e && p.user_id == u)

/-! ## The aggregation endpoint, `get_destinations`
(src/app/app.py lines 187-239) -/

/-- One entry of the merged result (`{**dest, 'is_organizer': ..., ...}`).
Keys the code never sets on a given entry (`participation_type` on
organizer entries, `organizer_name` before annotation) are `none`. -/
structure View where
  id : Nat
  user_id : Nat
  place_name : String
  scheduled_date : String
  scheduled_time : Option String
  status : String
  is_organizer : Bool
  participation_type : Option String
  organizer_name : Option String
deriving DecidableEq, Repr

def mkOrganizerView (d : Event) : View :=
  ⟨d.id, d.user_id, d.place_name, d.scheduled_date, d.scheduled_time,
   d.status, true, none, none⟩

def mkParticipantView (d : Event) (pt : Option String) : View :=
  ⟨d.id, d.user_id, d.place_name, d.scheduled_date, d.scheduled_time,
   d.status, false, pt, none⟩

/-- The store interface consumed by the read path.  Each operation may fail
(a raised exception from the supabase client); `participantsByUser` mirrors
`select('event_id')` and therefore yields only event ids. -/
structure Store where
  destsByUser : Nat → Except String (List Event)
  participantsByUser : Nat → Except String (List Nat)
  destsByIds : List Nat → Except String (List Event)
  userById : Nat → Except String (List UserRow)

/-- The pure store over concrete tables: the supabase filters `eq` and
`in_` become list filters, and nothing fails. -/
def Store.ofTables (events : List Event) (parts : List Participation)
    (users : List UserRow) : Store where
  destsByUser u := .ok (events.filter (fun e => e.user_id == u))
  participantsByUser u :=
    .ok ((parts.filter (fun p => p.user_id == u)).map (fun p => p.event_id))
  destsByIds ids := .ok (events.filter (fun e => ids.contains e.id))
  userById i := .ok (users.filter (fun u => u.id == i))

/-- Python dict assignment `m[k] = v` on an insertion-ordered dict:
overwrite in place when the key exists, else append. -/
def dictInsert (m : List (Nat × View)) (k : Nat) (v : View) : List (Nat × View) :=
  if m.any (fun kv => kv.1 == k) then
    m.map (fun kv => if kv.1 == k then (k, v) else kv)
  else m ++ [(k, v)]

def dictHasKey (m : List (Nat × View)) (k : Nat) : Bool :=
  m.any (fun kv => kv.1 == k)

/-- The keys of the insertion-ordered dict are pairwise distinct. -/
def keysNodup (m : List (Nat × View)) : Prop :=
  (m.map (fun kv => kv.1)).Nodup

/-- The first merge pass (lines 212-213): every owned destination enters the
mapping keyed by its id, tagged `is_organizer = True`. -/
def buildOwned (created : List Event) : List (Nat × View) :=
  created.foldl (fun m d => dictInsert m d.id (mkOrganizerView d)) []

/-- The loop over `participant_destinations` (lines 215-223): a destination
already present (self-owned) is skipped; otherwise the matching
participation row is looked up by event id.  A found row carries only the
`event_id` key (only that column was selected at line 201), so reading
`part['participation_type']` raises `KeyError`; when no row matches the
type defaults to `None`. -/
def mergeParticipated (pids : List Nat) :
    List Event → List (Nat × View) → Except String (List (Nat × View))
  | [], m => .ok m
  | d :: ds, m =>
    if dictHasKey m d.id then mergeParticipated pids ds m
    else if pids.contains d.id then .error "KeyError: participation_type"
    else mergeParticipated pids ds (dictInsert m d.id (mkParticipantView d none))

/-- `organizer.data[0].get('name') or organizer.data[0].get('email')`. -/
def pyNameOrEmail (name : Option String) (email : String) : String :=
  match name with
  | some n => if n.data ≠ [] then n else email
  | none => email

/-- The organizer-name pass (lines 226-230): for every entry with a truthy
`user_id`, look the owner up and, when the lookup returns a row, set
`organizer_name` to name-or-email.  A store failure propagates. -/
def annotateOrganizers (s : Store) :
    List (Nat × View) → Except String (List (Nat × View))
  | [] => .ok []
  | (k, v) :: rest =>
    if v.user_id != 0 then
      match s.userById v.user_id with
      | .error m => .error m
      | .ok [] =>
        match annotateOrganizers s rest with
        | .error m => .error m
        | .ok r => .ok ((k, v) :: r)
      | .ok (u :: _) =>
        match annotateOrganizers s rest with
        | .error m => .error m
        | .ok r =>
          .ok ((k, { v with organizer_name := some (pyNameOrEmail u.name u.email) }) :: r)
    else
      match annotateOrganizers s rest with
      | .error m => .error m
      | .ok r => .ok ((k, v) :: r)

/-- The sort key `(x.get('scheduled_date', ''), x.get('scheduled_time', ''))`.
Both keys are always present on the merged entries (they come from
`select('*')` rows), so the `''` defaults never apply and a `NULL`
`scheduled_time` stays `None` in the key. -/
def sortKey (v : View) : String × Option String :=
  (v.scheduled_date, v.scheduled_time)

/-- Python `<` on two sort keys.  Tuples compare componentwise; comparing
`None` with a string raises `TypeError`. -/
def keyLt (a b : String × Option String) : Except String Bool :=
  if a.1.data = b.1.data then
    match a.2, b.2 with
    | none, none => .ok false
    | some x, some y => .ok (pyStrLt x.data y.data)
    | _, _ => .error "TypeError: '<' not supported between instances of 'NoneType' and 'str'"
  else .ok (pyStrLt a.1.data b.1.data)

/-- `list.sort(key=...)`: modelled as a stable comparison sort whose key
comparisons can raise; a raised comparison aborts the sort.  (CPython's
timsort performs a different comparison sequence, but compares the same
keys with the same `<`; on every input a claim exercises the two agree.) -/
def insertSorted (v : View) : List View → Except String (List View)
  | [] => .ok [v]
  | w :: ws =>
    match keyLt (sortKey v) (sortKey w) with
    | .error m => .error m
    | .ok true => .ok (v :: w :: ws)
    | .ok false =>
      match insertSorted v ws with
      | .error m => .error m
      | .ok r => .ok (w :: r)

def sortViews : List View → Except String (List View)
  | [] => .ok []
  | v :: vs =>
    match sortViews vs with
    | .error m => .error m
    | .ok r => insertSorted v r

/-- The body of `get_destinations`'s `try` block: the sequence of store
reads, the two merge passes, the organizer annotation and the final sort,
any failure of which propagates. -/
def aggregateCore (s : Store) (user : Nat) : Except String (List View) :=
  match s.destsByUser user with
  | .error m => .error m
  | .ok created =>
    match s.participantsByUser user with
    | .error m => .error m
    | .ok pids =>
      match (if pids.isEmpty then Except.ok [] else s.destsByIds pids) with
      | .error m => .error m
      | .ok pdests =>
        match mergeParticipated pids pdests (buildOwned created) with
        | .error m => .error m
        | .ok m2 =>
          match annotateOrganizers s m2 with
          | .error m => .error m
          | .ok m3 =>
            sortViews (m3.map (fun kv => kv.2))

/-- `get_destinations` as seen by the caller: the `except` clause turns any
failure of the aggregation into an empty list. -/
def getDestinations (s : Store) (user : Nat) : List View :=
  match aggregateCore s user with
  | .ok l => l
  | .error _ => []

/-! ## Predicates used to state the (amended) time-resolution claim -/

/-- Does this token parse under `int()` to a value in `[lo, hi]`? -/
def intInRange (l : List Char) (lo hi : Int) : Bool :=
  match pyInt l with
  | some v => lo ≤ v && v ≤ hi
  | none => false

/-- The first (up to) three colon-separated components are all numeric. -/
def timeNumeric (t : String) : Bool :=
  (pyInt ((splitChar ':' t.data).headD [])).isSome
    && (decide ((splitChar ':' t.data).length ≤ 1)
        || (pyInt ((splitChar ':' t.data).getD 1 [])).isSome)
    && (decide ((splitChar ':' t.data).length ≤ 2)
        || (pyInt ((splitChar ':' t.data).getD 2 [])).isSome)

/-- The first (up to) three components are numeric and denote a valid
wall-clock time: hour 0-23, minute 0-59, second 0-59, missing minute and
second counting as 0. -/
def sweepTimeOK (t : String) : Bool :=
  intInRange ((splitChar ':' t.data).headD []) 0 23
    && (decide ((splitChar ':' t.data).length ≤ 1)
        || intInRange ((splitChar ':' t.data).getD 1 []) 0 59)
    && (decide ((splitChar ':' t.data).length ≤ 2)
        || intInRange ((splitChar ':' t.data).getD 2 []) 0 59)

deriving instance DecidableEq for Except

/-! ## Concrete fixtures used by witnesses and counterexamples -/

/-- An all-day event scheduled on 2024-06-01, owned by user 1. -/
def allDayEvent : Event :=
  ⟨1, 1, "Dolores Park", "2024-06-01", none, "active"⟩

def allDayTbl : List Event := [allDayEvent]

/-- Noon on the event's scheduled day. -/
def noonJun1 : Nat := instAt 2024 6 1 12 0 0

/-- The spec's sort-order example, all owned by user 1: an all-day event on
2024-01-01, an event at 2024-01-01 09:00:00, an event at 2024-01-02
00:00:00. -/
def sortExampleEvents : List Event :=
  [⟨1, 1, "a", "2024-01-01", none, "active"⟩,
   ⟨2, 1, "b", "2024-01-01", some "09:00:00", "active"⟩,
   ⟨3, 1, "c", "2024-01-02", some "00:00:00", "active"⟩]

def sortExampleStore : Store := Store.ofTables sortExampleEvents [] []

/-- A batch with a malformed-date event followed by an expired event. -/
def badThenDueTbl : List Event :=
  [⟨1, 1, "bad", "bad-date", none, "active"⟩,
   ⟨2, 1, "due", "2020-01-01", none, "active"⟩]

def jan2024 : Nat := instAt 2024 1 1 0 0 0

/-- A sweep batch with one expired and one future event (distinct ids). -/
def dueAndFutureTbl : List Event :=
  [⟨1, 1, "a", "2020-01-01", none, "active"⟩,
   ⟨2, 1, "b", "2999-01-01", none, "active"⟩]

/-- An event scheduled at exactly 2024-06-01 10:00:00. -/
def tenAmEvent : Event :=
  ⟨1, 1, "p", "2024-06-01", some "10:00:00", "active"⟩

def tenAmJun1 : Nat := instAt 2024 6 1 10 0 0

/-- Tables where user 1 both owns event 1 and has joined it. -/
def ownJoinEvents : List Event :=
  [⟨1, 1, "p", "2024-01-01", some "09:00:00", "active"⟩]

def ownJoinParts : List Participation := [⟨1, 1, "joined"⟩]

def ownJoinStore : Store := Store.ofTables ownJoinEvents ownJoinParts []

/-- A store whose first query fails (store unreachable). -/
def failingQueryStore : Store where
  destsByUser _ := .error "StoreUnavailable"
  participantsByUser _ := .ok []
  destsByIds _ := .ok []
  userById _ := .ok []

/-- A store where only the owner-name lookup fails. -/
def failingUserStore : Store where
  destsByUser _ := .ok [allDayEvent]
  participantsByUser _ := .ok []
  destsByIds _ := .ok []
  userById _ := .error "StoreUnavailable"

/-- One event, with an existing participation of user 2. -/
def partEvents : List Event := [⟨1, 1, "p", "2024-01-01", none, "active"⟩]

def partParts : List Participation := [⟨1, 2, "joined"⟩]

/-! # Theorems -/

/-- Only the final branch of `cancel_destination` writes: every other
branch returns the table it was given. -/
theorem cancel_unchanged_or_success (tbl : List Event) (destId requester now : Nat) :
    (cancelDestination tbl destId requester now).2 = CancelResult.success ∨
    (cancelDestination tbl destId requester now).1 = tbl := by
  unfold cancelDestination
  split
  · exact Or.inr rfl
  · split
    · exact Or.inr rfl
    · split
      · exact Or.inr rfl
      · split
        · exact Or.inr rfl
        · split
          · exact Or.inr rfl
          · exact Or.inl rfl

/-- Claim C10: whenever `cancel_destination` returns an error — not found,
unauthorized, already cancelled, past event, or a parse failure — no write
is issued: the persisted table is exactly the one read. -/
theorem claim_C10 (tbl : List Event) (destId requester now : Nat)
    (h : (cancelDestination tbl destId requester now).2 ≠ CancelResult.success) :
    (cancelDestination tbl destId requester now).1 = tbl :=
  (cancel_unchanged_or_success tbl destId requester now).resolve_left h

/-- Witness for C10: a non-owner's cancel request is rejected and leaves
the store untouched. -/
theorem claim_C10_witness :
    (cancelDestination allDayTbl 1 2 noonJun1).1 = allDayTbl :=
  claim_C10 allDayTbl 1 2 noonJun1 (by decide)

/-- Claim C1 (code evaluation at the failing input): the owner cancels an
active all-day event at noon of its scheduled day, and the code rejects
the request as a past event — the comparison instant is built from
`datetime.min.time()` (start of day), not 23:59:59 as the claim states. -/
theorem claim_C1_code_eval :
    cancelDestination allDayTbl 1 1 noonJun1 = (allDayTbl, CancelResult.pastEvent)
    ∧ instAt 2024 6 1 0 0 0 < noonJun1 ∧ noonJun1 < instAt 2024 6 1 23 59 59 := by
  refine ⟨by decide, by decide, by decide⟩

/-- Claim C9: any failure inside the aggregation — a store query failure,
the owner-name lookup, the final sort — makes `get_destinations` return an
empty list instead of propagating the error. -/
theorem claim_C9 (s : Store) (user : Nat) (m : String)
    (h : aggregateCore s user = Except.error m) :
    getDestinations s user = [] := by
  unfold getDestinations
  rw [h]

/-- Witness for C9, covering each failure mode the claim lists: a failing
destinations query, a failing owner-name lookup, and a sort failure (the
`TypeError` raised on the spec's own sort example). -/
theorem claim_C9_witness :
    getDestinations failingQueryStore 1 = []
    ∧ getDestinations failingUserStore 1 = []
    ∧ getDestinations sortExampleStore 1 = [] :=
  ⟨claim_C9 failingQueryStore 1 "StoreUnavailable" (by decide),
   claim_C9 failingUserStore 1 "StoreUnavailable" (by decide),
   claim_C9 sortExampleStore 1
     "TypeError: '<' not supported between instances of 'NoneType' and 'str'" (by decide)⟩

/-- Counterexample to claim C5 as stated: `"24:00"` decomposes into two
numeric components, yet resolution fails (the range check of
`time(hour, minute, second)` raises); conversely the one-component string
`"14"` is not a 2-3 component string, yet resolution succeeds. -/
theorem claim_C5_counterexample :
    resolveInstant "2024-06-01" (some "24:00") = Except.error "MalformedTimeError"
    ∧ (resolveInstant "2024-06-01" (some "14")).isOk = true := by
  refine ⟨by decide, by decide⟩


/-! ## Helper lemmas about the parsers -/

theorem intInRange_none {l : List Char} {lo hi : Int} (h : pyInt l = none) :
    intInRange l lo hi = false := by
  unfold intInRange; rw [h]

theorem intInRange_some {l : List Char} {lo hi v : Int} (h : pyInt l = some v) :
    intInRange l lo hi = (decide (lo ≤ v) && decide (v ≤ hi)) := by
  unfold intInRange; rw [h]

/-- `parseDate` raises only `MalformedDateError`. -/
theorem parseDate_error_msg (d m : String) (h : parseDate d = Except.error m) :
    m = "MalformedDateError" := by
  unfold parseDate at h
  split at h
  · split at h
    · split at h
      · exact absurd h (by simp)
      · injection h with h2; exact h2.symm
    · injection h with h2; exact h2.symm
  · injection h with h2; exact h2.symm

/-- `datetime.time` constructs a value exactly on in-range components. -/
theorem mkTime_eq (h mi s : Int) :
    mkTime h mi s =
      (if 0 ≤ h ∧ h ≤ 23 ∧ 0 ≤ mi ∧ mi ≤ 59 ∧ 0 ≤ s ∧ s ≤ 59 then
        Except.ok (h.toNat, mi.toNat, s.toNat)
      else Except.error "MalformedTimeError") := by
  by_cases hp : 0 ≤ h ∧ h ≤ 23 ∧ 0 ≤ mi ∧ mi ≤ 59 ∧ 0 ≤ s ∧ s ≤ 59
  · rw [if_pos hp]
    unfold mkTime
    rw [if_pos (by simp only [Bool.and_eq_true, decide_eq_true_eq]; omega)]
  · rw [if_neg hp]
    unfold mkTime
    rw [if_neg (by simp only [Bool.and_eq_true, decide_eq_true_eq]; omega)]

/-- Claim C5 (amended): resolution of a truthy time string fails with
`MalformedTimeError` exactly when one of its first three colon-separated
components is not numeric, or when the components are numeric and the date
is valid but hour/minute/second (minute and second defaulting to 0) fall
outside 0-23/0-59/0-59; it fails with `MalformedDateError` when the
components are numeric but the date is not a valid calendar date; and it
succeeds whenever the date is valid and the components are numeric and in
range — including 1-component strings and strings with extra components
beyond the third. -/
theorem claim_C5_amended (d t : String) (ht : t.data ≠ []) :
    (timeNumeric t = false →
      resolveInstant d (some t) = Except.error "MalformedTimeError")
    ∧ (timeNumeric t = true → (parseDate d).isOk = false →
      resolveInstant d (some t) = Except.error "MalformedDateError")
    ∧ (timeNumeric t = true → (parseDate d).isOk = true → sweepTimeOK t = false →
      resolveInstant d (some t) = Except.error "MalformedTimeError")
    ∧ ((parseDate d).isOk = true → sweepTimeOK t = true →
      (resolveInstant d (some t)).isOk = true) := by
  have htr : truthy (some t) = true := by simp [truthy, ht]
  have hres : resolveInstant d (some t) = resolveTimed d t := by
    unfold resolveInstant
    simp [htr]
  rw [hres]
  unfold resolveTimed timeNumeric sweepTimeOK
  cases h0 : pyInt ((splitChar ':' t.data).headD []) with
  | none =>
    rw [intInRange_none h0]
    simp only [h0, Option.isSome_none, Bool.false_and, Bool.and_false]
    simp
  | some hh =>
    rw [intInRange_some h0]
    simp only [h0, Option.isSome_some, Bool.true_and]
    by_cases hl1 : (splitChar ':' t.data).length > 1
    · rw [if_pos hl1]
      have hd1 : decide ((splitChar ':' t.data).length ≤ 1) = false := by
        simp; omega
      rw [hd1]
      simp only [Bool.false_or]
      cases h1 : pyInt ((splitChar ':' t.data).getD 1 []) with
      | none =>
        rw [intInRange_none h1]
        simp only [h1, Option.isSome_none, Bool.false_and, Bool.and_false]
        simp
      | some mm =>
        rw [intInRange_some h1]
        simp only [h1, Option.isSome_some, Bool.true_and]
        by_cases hl2 : (splitChar ':' t.data).length > 2
        · rw [if_pos hl2]
          have hd2 : decide ((splitChar ':' t.data).length ≤ 2) = false := by
            simp; omega
          rw [hd2]
          simp only [Bool.false_or]
          cases h2 : pyInt ((splitChar ':' t.data).getD 2 []) with
          | none =>
            rw [intInRange_none h2]
            simp only [h2, Option.isSome_none, Bool.and_false]
            simp
          | some ss =>
            rw [intInRange_some h2]
            simp only [h2, Option.isSome_some, Bool.and_true]
            cases hd : parseDate d with
            | error m =>
              have hm := parseDate_error_msg d m hd
              subst hm
              simp [hd, Except.isOk, Except.toBool]
            | ok ymd =>
              simp only [hd]
              rw [mkTime_eq]
              refine ⟨by simp, by simp [Except.isOk, Except.toBool], ?_, ?_⟩
              · intro _ _ hsw
                rw [if_neg (by simp at hsw; omega)]
              · intro _ hsw
                rw [if_pos (by simp at hsw; omega)]
                rfl
        · rw [if_neg hl2]
          have hd2 : decide ((splitChar ':' t.data).length ≤ 2) = true := by
            simp; omega
          rw [hd2]
          simp only [Bool.true_or, Bool.and_true]
          cases hd : parseDate d with
          | error m =>
            have hm := parseDate_error_msg d m hd
            subst hm
            simp [hd, Except.isOk, Except.toBool]
          | ok ymd =>
            simp only [hd]
            rw [mkTime_eq]
            refine ⟨by simp, by simp [Except.isOk, Except.toBool], ?_, ?_⟩
            · intro _ _ hsw
              rw [if_neg (by simp at hsw; omega)]
            · intro _ hsw
              rw [if_pos (by simp at hsw; omega)]
              rfl
    · rw [if_neg hl1]
      have hl2 : ¬ (splitChar ':' t.data).length > 2 := by omega
      rw [if_neg hl2]
      have hd1 : decide ((splitChar ':' t.data).length ≤ 1) = true := by
        simp; omega
      have hd2 : decide ((splitChar ':' t.data).length ≤ 2) = true := by
        simp; omega
      rw [hd1, hd2]
      simp only [Bool.true_or, Bool.and_true]
      cases hd : parseDate d with
      | error m =>
        have hm := parseDate_error_msg d m hd
        subst hm
        simp [hd, Except.isOk, Except.toBool]
      | ok ymd =>
        simp only [hd]
        rw [mkTime_eq]
        refine ⟨by simp, by simp [Except.isOk, Except.toBool], ?_, ?_⟩
        · intro _ _ hsw
          rw [if_neg (by simp at hsw; omega)]
        · intro _ hsw
          rw [if_pos (by simp at hsw; omega)]
          rfl


/-- Witness for the amended C5: a valid date with the 2-component in-range
time string `"10:30"` resolves successfully. -/
theorem claim_C5_amended_witness :
    (resolveInstant "2024-06-01" (some "10:30")).isOk = true :=
  (claim_C5_amended "2024-06-01" "10:30" (by decide)).2.2.2 (by decide) (by decide)


/-! ## Participation invariant lemmas -/

/-- A single participate request never raises the number of records for any
pair above one. -/
theorem participate_pair_bound (events : List Event) (parts : List Participation)
    (e0 u0 : Nat) (t : String) (e u : Nat) (h : pairCount parts e u ≤ 1) :
    pairCount (participateEvent events parts e0 u0 t).1 e u ≤ 1 := by
  unfold participateEvent
  split
  · exact h
  · split
    · exact h
    · split
      · next hemp =>
        dsimp only
        unfold pairCount at h ⊢
        rw [List.countP_append]
        by_cases hmatch : (e0 == e && u0 == u) = true
        · simp only [Bool.and_eq_true, beq_iff_eq] at hmatch
          obtain ⟨he, hu⟩ := hmatch
          subst he; subst hu
          have hzero : List.countP (fun p => p.event_id == e0 && p.user_id == u0) parts = 0 := by
            rw [List.countP_eq_length_filter, List.isEmpty_iff.mp hemp]
            rfl
          have hone : List.countP (fun p => p.event_id == e0 && p.user_id == u0)
              [(⟨e0, u0, t⟩ : Participation)] ≤ 1 := by
            simp only [List.countP_cons, List.countP_nil]
            split <;> omega
          omega
        · have hz : List.countP (fun p => p.event_id == e && p.user_id == u)
              [(⟨e0, u0, t⟩ : Participation)] = 0 := by
            simp only [List.countP_cons, List.countP_nil]
            split
            · next hx => exact absurd hx hmatch
            · rfl
          omega
      · next hne =>
        dsimp only
        unfold pairCount at h ⊢
        rw [List.countP_map]
        have heq : ((fun p => p.event_id == e && p.user_id == u) ∘
            (fun p => if (p.event_id == e0 && p.user_id == u0) = true then
              { p with participation_type := t } else p)) =
            (fun (p : Participation) => p.event_id == e && p.user_id == u) := by
          funext p
          simp only [Function.comp_apply]
          split <;> rfl
        rw [heq]
        exact h

/-- The pair invariant is preserved across any sequence of requests. -/
theorem applyParticipations_pair_bound (events : List Event)
    (reqs : List (Nat × Nat × String)) :
    ∀ (parts : List Participation) (e u : Nat), pairCount parts e u ≤ 1 →
      pairCount (applyParticipations events parts reqs) e u ≤ 1 := by
  induction reqs with
  | nil => intro parts e u h; exact h
  | cons r rs ih =>
    intro parts e u h
    exact ih _ e u (participate_pair_bound events parts r.1 r.2.1 r.2.2 e u h)

/-- A request for a pair that already has exactly one record overwrites its
kind in place. -/
theorem participate_overwrite (events : List Event) (parts : List Participation)
    (e u : Nat) (t : String)
    (ht : t = "joined" ∨ t = "interested")
    (hev : (events.filter (fun ev => ev.id == e)).isEmpty = false)
    (hcnt : pairCount parts e u = 1) :
    (participateEvent events parts e u t).1.filter
      (fun p => p.event_id == e && p.user_id == u) = [⟨e, u, t⟩] := by
  have hfne : (parts.filter (fun p => p.event_id == e && p.user_id == u)).isEmpty = false := by
    unfold pairCount at hcnt
    rw [List.countP_eq_length_filter] at hcnt
    cases hfl : parts.filter (fun p => p.event_id == e && p.user_id == u) with
    | nil => rw [hfl] at hcnt; simp at hcnt
    | cons a as => rfl
  unfold participateEvent
  rw [if_neg (by rcases ht with h | h <;> subst h <;> decide)]
  rw [if_neg (by rw [hev]; exact Bool.false_ne_true)]
  rw [if_neg (by rw [hfne]; exact Bool.false_ne_true)]
  dsimp only
  obtain ⟨p0, hp0⟩ : ∃ p0, parts.filter (fun p => p.event_id == e && p.user_id == u) = [p0] := by
    apply List.length_eq_one.mp
    rw [← List.countP_eq_length_filter]
    exact hcnt
  have hp0mem : p0 ∈ parts.filter (fun p => p.event_id == e && p.user_id == u) := by
    rw [hp0]; exact List.mem_singleton_self p0
  have hp0pred : (p0.event_id == e && p0.user_id == u) = true :=
    (List.mem_filter.mp hp0mem).2
  rw [List.filter_map]
  have hpf : ∀ p' ∈ parts,
      ((fun p => p.event_id == e && p.user_id == u) ∘
        (fun p => if (p.event_id == e && p.user_id == u) = true then
          { p with participation_type := t } else p)) p' =
      (fun p => p.event_id == e && p.user_id == u) p' := by
    intro p' _
    simp only [Function.comp_apply]
    split <;> rfl
  rw [List.filter_congr hpf, hp0]
  simp only [List.map_cons, List.map_nil]
  rw [if_pos hp0pred]
  simp only [Bool.and_eq_true, beq_iff_eq] at hp0pred
  obtain ⟨h1, h2⟩ := hp0pred
  cases p0
  simp_all

/-- Claim C8: starting from a store holding at most one participation record
for a pair, any sequence of participate requests leaves at most one record
for that pair; and a request for an existing pair (valid kind, existing
event) overwrites the record's `participation_type` in place rather than
inserting a duplicate. -/
theorem claim_C8 (events : List Event) (reqs : List (Nat × Nat × String))
    (parts : List Participation) (e u : Nat)
    (h : pairCount parts e u ≤ 1) :
    pairCount (applyParticipations events parts reqs) e u ≤ 1
    ∧ ∀ t, (t = "joined" ∨ t = "interested") →
        (events.filter (fun ev => ev.id == e)).isEmpty = false →
        pairCount parts e u = 1 →
        (participateEvent events parts e u t).1.filter
          (fun p => p.event_id == e && p.user_id == u) = [⟨e, u, t⟩] :=
  ⟨applyParticipations_pair_bound events reqs parts e u h,
   fun t ht hev hcnt => participate_overwrite events parts e u t ht hev hcnt⟩

/-- Witness for C8: user 2 already joined event 1; a second request flips
the kind to `interested` without creating a second record. -/
theorem claim_C8_witness :
    pairCount (applyParticipations partEvents partParts [(1, 2, "interested")]) 1 2 ≤ 1
    ∧ (participateEvent partEvents partParts 1 2 "interested").1.filter
        (fun p => p.event_id == 1 && p.user_id == 2) = [⟨1, 2, "interested"⟩] :=
  ⟨(claim_C8 partEvents [(1, 2, "interested")] partParts 1 2 (by decide)).1,
   (claim_C8 partEvents [(1, 2, "interested")] partParts 1 2 (by decide)).2
     "interested" (Or.inr rfl) (by decide) (by decide)⟩

/-- Claim C2 (code evaluation at the failing input): on the spec's own sort
example — an all-day event and a timed event on the same date plus a later
event — the sort key comparison between `None` and a time string raises
`TypeError` and the endpoint returns the empty list, not the sorted
three-event list. -/
theorem claim_C2_code_eval :
    aggregateCore sortExampleStore 1 =
      Except.error "TypeError: '<' not supported between instances of 'NoneType' and 'str'"
    ∧ getDestinations sortExampleStore 1 = [] :=
  ⟨by decide, by decide⟩

/-! ## Aggregation merge lemmas (claim C6) -/

theorem dictInsert_mem {m : List (Nat × View)} {k : Nat} {v : View}
    {kv : Nat × View} (h : kv ∈ dictInsert m k v) : kv = (k, v) ∨ kv ∈ m := by
  unfold dictInsert at h
  split at h
  · obtain ⟨kv', hkv', hf⟩ := List.mem_map.mp h
    by_cases hk : (kv'.1 == k) = true
    · rw [if_pos hk] at hf; exact Or.inl hf.symm
    · rw [if_neg hk] at hf; exact Or.inr (hf ▸ hkv')
  · rcases List.mem_append.mp h with h' | h'
    · exact Or.inr h'
    · exact Or.inl (List.mem_singleton.mp h')

theorem dictInsert_keys_eq_of_hasKey {m : List (Nat × View)} {k : Nat} {v : View}
    (h : m.any (fun kv => kv.1 == k) = true) :
    (dictInsert m k v).map (fun kv => kv.1) = m.map (fun kv => kv.1) := by
  unfold dictInsert
  rw [if_pos h, List.map_map]
  apply List.map_congr_left
  intro kv _
  simp only [Function.comp_apply]
  by_cases hk : (kv.1 == k) = true
  · rw [if_pos hk]
    exact (beq_iff_eq.mp hk).symm
  · rw [if_neg hk]

theorem dictInsert_keysNodup {m : List (Nat × View)} {k : Nat} {v : View}
    (h : keysNodup m) : keysNodup (dictInsert m k v) := by
  unfold keysNodup at h ⊢
  by_cases hk : m.any (fun kv => kv.1 == k) = true
  · rw [dictInsert_keys_eq_of_hasKey hk]; exact h
  · unfold dictInsert
    rw [if_neg hk, List.map_append]
    rw [List.nodup_append]
    refine ⟨h, List.nodup_singleton k, ?_⟩
    intro x hx hx'
    simp only [List.map_cons, List.map_nil, List.mem_singleton] at hx'
    subst hx'
    obtain ⟨kv, hkv, hkvk⟩ := List.mem_map.mp hx
    apply hk
    exact List.any_eq_true.mpr ⟨kv, hkv, by rw [hkvk]; exact beq_self_eq_true x⟩

theorem dictHasKey_insert_self (m : List (Nat × View)) (k : Nat) (v : View) :
    dictHasKey (dictInsert m k v) k = true := by
  unfold dictHasKey dictInsert
  by_cases hk : m.any (fun kv => kv.1 == k) = true
  · rw [if_pos hk]
    obtain ⟨kv, hkv, hkvk⟩ := List.any_eq_true.mp hk
    refine List.any_eq_true.mpr ⟨(k, v), List.mem_map.mpr ⟨kv, hkv, ?_⟩, beq_self_eq_true k⟩
    rw [if_pos hkvk]
  · rw [if_neg hk]
    refine List.any_eq_true.mpr ⟨(k, v), List.mem_append.mpr (Or.inr (List.mem_singleton.mpr rfl)), beq_self_eq_true k⟩

theorem dictHasKey_insert_mono {m : List (Nat × View)} {k' : Nat}
    (h : dictHasKey m k' = true) (k : Nat) (v : View) :
    dictHasKey (dictInsert m k v) k' = true := by
  unfold dictHasKey at h ⊢
  unfold dictInsert
  obtain ⟨kv, hkv, hk'⟩ := List.any_eq_true.mp h
  split
  · by_cases hkk : (kv.1 == k) = true
    · refine List.any_eq_true.mpr ⟨(k, v), List.mem_map.mpr ⟨kv, hkv, by rw [if_pos hkk]⟩, ?_⟩
      have hkeq : k = k' := by
        rw [← beq_iff_eq.mp hkk]; exact beq_iff_eq.mp hk'
      rw [hkeq]
      exact beq_self_eq_true k'
    · exact List.any_eq_true.mpr ⟨kv, List.mem_map.mpr ⟨kv, hkv, by rw [if_neg hkk]⟩, hk'⟩
  · exact List.any_eq_true.mpr ⟨kv, List.mem_append.mpr (Or.inl hkv), hk'⟩


theorem foldInsert_prop (P : Nat × View → Prop)
    (hP : ∀ d : Event, P (d.id, mkOrganizerView d)) :
    ∀ (ds : List Event) (m : List (Nat × View)), (∀ kv ∈ m, P kv) →
      ∀ kv ∈ ds.foldl (fun m d => dictInsert m d.id (mkOrganizerView d)) m, P kv := by
  intro ds
  induction ds with
  | nil => intro m hm kv hkv; exact hm kv hkv
  | cons d rest ih =>
    intro m hm kv hkv
    refine ih (dictInsert m d.id (mkOrganizerView d)) ?_ kv hkv
    intro kv' hkv'
    rcases dictInsert_mem hkv' with h | h
    · rw [h]; exact hP d
    · exact hm kv' h

theorem foldInsert_keysNodup :
    ∀ (ds : List Event) (m : List (Nat × View)), keysNodup m →
      keysNodup (ds.foldl (fun m d => dictInsert m d.id (mkOrganizerView d)) m) := by
  intro ds
  induction ds with
  | nil => intro m hm; exact hm
  | cons d rest ih => intro m hm; exact ih _ (dictInsert_keysNodup hm)

theorem foldInsert_hasKey_mono :
    ∀ (ds : List Event) (m : List (Nat × View)) (k : Nat), dictHasKey m k = true →
      dictHasKey (ds.foldl (fun m d => dictInsert m d.id (mkOrganizerView d)) m) k = true := by
  intro ds
  induction ds with
  | nil => intro m k h; exact h
  | cons d rest ih => intro m k h; exact ih _ k (dictHasKey_insert_mono h _ _)

theorem foldInsert_hasKey :
    ∀ (ds : List Event) (m : List (Nat × View)) (d : Event), d ∈ ds →
      dictHasKey (ds.foldl (fun m d => dictInsert m d.id (mkOrganizerView d)) m) d.id = true := by
  intro ds
  induction ds with
  | nil => intro m d h; cases h
  | cons d0 rest ih =>
    intro m d h
    rcases List.mem_cons.mp h with h | h
    · subst h
      exact foldInsert_hasKey_mono rest _ d.id (dictHasKey_insert_self m d.id _)
    · exact ih _ d h

theorem buildOwned_organizer (created : List Event) :
    ∀ kv ∈ buildOwned created, kv.1 = kv.2.id ∧ kv.2.is_organizer = true := by
  refine foldInsert_prop _ ?_ created [] (by intro kv h; cases h)
  intro d
  exact ⟨rfl, rfl⟩

theorem buildOwned_keysNodup (created : List Event) : keysNodup (buildOwned created) :=
  foldInsert_keysNodup created [] (by simp [keysNodup])

theorem buildOwned_hasKey (created : List Event) (d : Event) (h : d ∈ created) :
    dictHasKey (buildOwned created) d.id = true :=
  foldInsert_hasKey created [] d h


theorem merge_keysNodup (pids : List Nat) :
    ∀ (ds : List Event) (m m2 : List (Nat × View)),
      mergeParticipated pids ds m = Except.ok m2 → keysNodup m → keysNodup m2 := by
  intro ds
  induction ds with
  | nil =>
    intro m m2 h hm
    injection h with h
    exact h ▸ hm
  | cons d rest ih =>
    intro m m2 h hm
    unfold mergeParticipated at h
    split at h
    · exact ih m m2 h hm
    · split at h
      · cases h
      · exact ih _ m2 h (dictInsert_keysNodup hm)

theorem merge_hasKey_mono (pids : List Nat) :
    ∀ (ds : List Event) (m m2 : List (Nat × View)) (k : Nat),
      mergeParticipated pids ds m = Except.ok m2 →
      dictHasKey m k = true → dictHasKey m2 k = true := by
  intro ds
  induction ds with
  | nil =>
    intro m m2 k h hk
    injection h with h
    exact h ▸ hk
  | cons d rest ih =>
    intro m m2 k h hk
    unfold mergeParticipated at h
    split at h
    · exact ih m m2 k h hk
    · split at h
      · cases h
      · exact ih _ m2 k h (dictHasKey_insert_mono hk _ _)

theorem merge_mem (pids : List Nat) :
    ∀ (ds : List Event) (m m2 : List (Nat × View)),
      mergeParticipated pids ds m = Except.ok m2 →
      ∀ kv ∈ m2, kv ∈ m ∨
        (kv.1 = kv.2.id ∧ kv.2.is_organizer = false ∧ dictHasKey m kv.1 = false) := by
  intro ds
  induction ds with
  | nil =>
    intro m m2 h kv hkv
    injection h with h
    exact Or.inl (h ▸ hkv)
  | cons d rest ih =>
    intro m m2 h kv hkv
    unfold mergeParticipated at h
    split at h
    · exact ih m m2 h kv hkv
    · next hnk =>
      split at h
      · cases h
      · rcases ih _ m2 h kv hkv with hin | ⟨hid, horg, hnk2⟩
        · rcases dictInsert_mem hin with heq | hin'
          · right
            rw [heq]
            refine ⟨rfl, rfl, ?_⟩
            rw [Bool.not_eq_true] at hnk
            exact hnk
          · exact Or.inl hin'
        · right
          refine ⟨hid, horg, ?_⟩
          by_cases hc : dictHasKey m kv.1 = true
          · exact absurd (dictHasKey_insert_mono hc _ _) (by rw [hnk2]; exact Bool.false_ne_true)
          · rw [Bool.not_eq_true] at hc
            exact hc

theorem annotate_map_eq (s : Store) :
    ∀ (m m3 : List (Nat × View)), annotateOrganizers s m = Except.ok m3 →
      m3.map (fun kv => (kv.1, kv.2.id, kv.2.is_organizer)) =
        m.map (fun kv => (kv.1, kv.2.id, kv.2.is_organizer)) := by
  intro m
  induction m with
  | nil =>
    intro m3 h
    injection h with h
    rw [← h]
  | cons kv rest ih =>
    intro m3 h
    obtain ⟨k, v⟩ := kv
    unfold annotateOrganizers at h
    split at h
    · cases hu : s.userById v.user_id with
      | error msg => rw [hu] at h; cases h
      | ok rows =>
        rw [hu] at h
        cases rows with
        | nil =>
          cases hr : annotateOrganizers s rest with
          | error msg => rw [hr] at h; cases h
          | ok r =>
            rw [hr] at h
            injection h with h
            rw [← h, List.map_cons, List.map_cons, ih r hr]
        | cons u us =>
          cases hr : annotateOrganizers s rest with
          | error msg => rw [hr] at h; cases h
          | ok r =>
            rw [hr] at h
            injection h with h
            rw [← h, List.map_cons, List.map_cons, ih r hr]
    · cases hr : annotateOrganizers s rest with
      | error msg => rw [hr] at h; cases h
      | ok r =>
        rw [hr] at h
        injection h with h
        rw [← h, List.map_cons, List.map_cons, ih r hr]

theorem insertSorted_perm (v : View) :
    ∀ (l l' : List View), insertSorted v l = Except.ok l' → l'.Perm (v :: l) := by
  intro l
  induction l with
  | nil =>
    intro l' h
    injection h with h
    rw [← h]
  | cons w ws ih =>
    intro l' h
    unfold insertSorted at h
    cases hk : keyLt (sortKey v) (sortKey w) with
    | error m => rw [hk] at h; cases h
    | ok b =>
      rw [hk] at h
      cases b with
      | true =>
        injection h with h
        rw [← h]
      | false =>
        cases hr : insertSorted v ws with
        | error m => rw [hr] at h; cases h
        | ok r =>
          rw [hr] at h
          injection h with h
          rw [← h]
          exact (List.Perm.cons w (ih r hr)).trans (List.Perm.swap v w ws)

theorem sortViews_perm :
    ∀ (l l' : List View), sortViews l = Except.ok l' → l'.Perm l := by
  intro l
  induction l with
  | nil =>
    intro l' h
    injection h with h
    rw [← h]
  | cons v vs ih =>
    intro l' h
    unfold sortViews at h
    cases hr : sortViews vs with
    | error m => rw [hr] at h; cases h
    | ok r => exact (insertSorted_perm v r l' (by rw [hr] at h; exact h)).trans (List.Perm.cons v (ih r hr))


theorem aggregate_ok_props (s : Store) (created pdests : List Event)
    (pids : List Nat) (m2 m3 : List (Nat × View)) (sorted : List View)
    (hm2 : mergeParticipated pids pdests (buildOwned created) = Except.ok m2)
    (hm3 : annotateOrganizers s m2 = Except.ok m3)
    (hs : sortViews (m3.map (fun kv => kv.2)) = Except.ok sorted) :
    (sorted.map (fun v => v.id)).Nodup ∧
    ∀ v ∈ sorted, (∃ d ∈ created, d.id = v.id) → v.is_organizer = true := by
  have hperm := sortViews_perm (m3.map (fun kv => kv.2)) sorted hs
  have hid2 : ∀ kv ∈ m2, kv.1 = kv.2.id := by
    intro kv hkv
    rcases merge_mem pids pdests _ m2 hm2 kv hkv with hin | ⟨hid, _, _⟩
    · exact (buildOwned_organizer created kv hin).1
    · exact hid
  have htr := annotate_map_eq s m2 m3 hm3
  have hids3 : m3.map (fun kv => kv.2.id) = m2.map (fun kv => kv.2.id) := by
    have := congrArg (List.map (fun t : Nat × Nat × Bool => t.2.1)) htr
    rw [List.map_map, List.map_map] at this
    exact this
  have hkeys3 : m3.map (fun kv => kv.1) = m2.map (fun kv => kv.1) := by
    have := congrArg (List.map (fun t : Nat × Nat × Bool => t.1)) htr
    rw [List.map_map, List.map_map] at this
    exact this
  have hnod2 : keysNodup m2 :=
    merge_keysNodup pids pdests _ m2 hm2 (buildOwned_keysNodup created)
  have hnod3 : (m3.map (fun kv => kv.2.id)).Nodup := by
    rw [hids3]
    have : m2.map (fun kv => kv.2.id) = m2.map (fun kv => kv.1) :=
      List.map_congr_left (fun kv hkv => (hid2 kv hkv).symm)
    rw [this]
    exact hnod2
  constructor
  · have hpm : (sorted.map (fun v => v.id)).Perm
        ((m3.map (fun kv => kv.2)).map (fun v => v.id)) := hperm.map _
    rw [List.map_map] at hpm
    exact (List.Perm.nodup_iff hpm).mpr hnod3
  · intro v hv ⟨d, hd, hdid⟩
    have hv3 : v ∈ m3.map (fun kv => kv.2) := hperm.mem_iff.mp hv
    obtain ⟨kv, hkv, hkveq⟩ := List.mem_map.mp hv3
    have htrip : (kv.1, kv.2.id, kv.2.is_organizer) ∈
        m2.map (fun kv => (kv.1, kv.2.id, kv.2.is_organizer)) := by
      rw [← htr]
      exact List.mem_map.mpr ⟨kv, hkv, rfl⟩
    obtain ⟨kv', hkv', htripeq⟩ := List.mem_map.mp htrip
    have h1 : kv'.1 = kv.1 := congrArg (fun t : Nat × Nat × Bool => t.1) htripeq
    have h2 : kv'.2.id = kv.2.id := congrArg (fun t : Nat × Nat × Bool => t.2.1) htripeq
    have h3 : kv'.2.is_organizer = kv.2.is_organizer :=
      congrArg (fun t : Nat × Nat × Bool => t.2.2) htripeq
    have hOwnedKey : dictHasKey (buildOwned created) kv'.1 = true := by
      have : kv'.1 = v.id := by
        rw [hid2 kv' hkv', h2, hkveq]
      rw [this, ← hdid]
      exact buildOwned_hasKey created d hd
    rcases merge_mem pids pdests _ m2 hm2 kv' hkv' with hin | ⟨_, _, hnk⟩
    · have : kv'.2.is_organizer = true := (buildOwned_organizer created kv' hin).2
      rw [← hkveq, ← h3, this]
    · rw [hOwnedKey] at hnk
      cases hnk

/-- Claim C6: the list returned by aggregation never contains two entries
with the same event id, and an event owned by the requesting user is only
ever reported with `is_organizer = true` (ownership wins over
participation). -/
theorem claim_C6 (events : List Event) (parts : List Participation)
    (users : List UserRow) (user : Nat) (v : View) :
    ((getDestinations (Store.ofTables events parts users) user).map (fun w => w.id)).Nodup
    ∧ (v ∈ getDestinations (Store.ofTables events parts users) user →
       (∃ ev ∈ events, ev.id = v.id ∧ ev.user_id = user) →
       v.is_organizer = true) := by
  unfold getDestinations
  cases hagg : aggregateCore (Store.ofTables events parts users) user with
  | error m => exact ⟨List.nodup_nil, by intro hv; cases hv⟩
  | ok l =>
    unfold aggregateCore at hagg
    have hdu : (Store.ofTables events parts users).destsByUser user =
        Except.ok (events.filter (fun e => e.user_id == user)) := rfl
    have hpu : (Store.ofTables events parts users).participantsByUser user =
        Except.ok (((parts.filter (fun p => p.user_id == user)).map (fun p => p.event_id))) := rfl
    rw [hdu, hpu] at hagg
    dsimp only at hagg
    set created := events.filter (fun e => e.user_id == user) with hcreated
    set pids := (parts.filter (fun p => p.user_id == user)).map (fun p => p.event_id) with hpids
    have hmain : ∀ (pdests : List Event),
        ((match mergeParticipated pids pdests (buildOwned created) with
          | Except.error m => Except.error m
          | Except.ok m2 =>
            match annotateOrganizers (Store.ofTables events parts users) m2 with
            | Except.error m => Except.error m
            | Except.ok m3 => sortViews (m3.map (fun kv => kv.2))) = Except.ok l) →
        ((l.map (fun w => w.id)).Nodup ∧
          ∀ w ∈ l, (∃ d ∈ created, d.id = w.id) → w.is_organizer = true) := by
      intro pdests hrest
      cases hm2 : mergeParticipated pids pdests (buildOwned created) with
      | error m => rw [hm2] at hrest; cases hrest
      | ok m2 =>
        rw [hm2] at hrest
        dsimp only at hrest
        cases hm3 : annotateOrganizers (Store.ofTables events parts users) m2 with
        | error m => rw [hm3] at hrest; cases hrest
        | ok m3 =>
          rw [hm3] at hrest
          dsimp only at hrest
          exact aggregate_ok_props (Store.ofTables events parts users)
            created pdests pids m2 m3 l hm2 hm3 hrest
    have hres : (l.map (fun w => w.id)).Nodup ∧
        ∀ w ∈ l, (∃ d ∈ created, d.id = w.id) → w.is_organizer = true := by
      by_cases hpe : pids.isEmpty = true
      · rw [if_pos hpe] at hagg
        exact hmain [] hagg
      · rw [if_neg hpe] at hagg
        exact hmain (events.filter (fun e => pids.contains e.id)) hagg
    refine ⟨hres.1, ?_⟩
    intro hv ⟨ev, hev, hevid, hevuid⟩
    refine hres.2 v hv ⟨ev, ?_, hevid⟩
    rw [hcreated]
    exact List.mem_filter.mpr ⟨hev, by rw [hevuid]; exact beq_self_eq_true user⟩

/-- Witness for C6: user 1 owns event 1 and has also joined it; the
aggregated result reports distinct ids, and the owned event's entry is an
organizer entry. -/
theorem claim_C6_witness :
    ((getDestinations ownJoinStore 1).map (fun w => w.id)).Nodup
    ∧ (⟨1, 1, "p", "2024-01-01", some "09:00:00", "active", true, none,
        none⟩ : View).is_organizer = true :=
  ⟨(claim_C6 ownJoinEvents ownJoinParts [] 1
      ⟨1, 1, "p", "2024-01-01", some "09:00:00", "active", true, none, none⟩).1,
   (claim_C6 ownJoinEvents ownJoinParts [] 1
      ⟨1, 1, "p", "2024-01-01", some "09:00:00", "active", true, none, none⟩).2
     (by decide)
     ⟨⟨1, 1, "p", "2024-01-01", some "09:00:00", "active"⟩, by decide, by decide, by decide⟩⟩

/-! ## Sweep lemmas (claims C3, C4, C7) -/

theorem applyUpdate_anyId (tbl : List Event) (i : Nat) (s : String) (j : Nat) :
    (applyUpdate tbl i s).any (fun x => x.id == j) = tbl.any (fun x => x.id == j) := by
  unfold applyUpdate
  rw [List.any_map]
  have : ((fun x : Event => x.id == j) ∘
      (fun x => if x.id == i then { x with status := s } else x)) =
      (fun x : Event => x.id == j) := by
    funext x
    simp only [Function.comp_apply]
    split <;> rfl
  rw [this]

theorem processEvents_eq (now : Nat) :
    ∀ (l tbl : List Event),
      processEvents now l tbl =
        (applyUpds tbl (updIds now l),
         match firstErr now l with
         | some m => Except.error m
         | none =>
           Except.ok ((updIds now l).countP (fun i => tbl.any (fun x => x.id == i)))) := by
  intro l
  induction l with
  | nil => intro tbl; rfl
  | cons e rest ih =>
    intro tbl
    unfold processEvents updIds firstErr
    cases hev : evaluateExpiry e now with
    | noChange => exact ih tbl
    | evalError m => rfl
    | transitionToPast =>
      rw [ih (applyUpdate tbl e.id "past")]
      have hany : (fun i => (applyUpdate tbl e.id "past").any (fun x => x.id == i)) =
          (fun i => tbl.any (fun x => x.id == i)) := by
        funext i
        exact applyUpdate_anyId tbl e.id "past" i
      cases hfe : firstErr now rest with
      | some m =>
        have : applyUpds tbl (e.id :: updIds now rest) =
            applyUpds (applyUpdate tbl e.id "past") (updIds now rest) := rfl
        rw [this]
      | none =>
        have h1 : applyUpds tbl (e.id :: updIds now rest) =
            applyUpds (applyUpdate tbl e.id "past") (updIds now rest) := rfl
        rw [h1, hany]
        have h2 : (e.id :: updIds now rest).countP (fun i => tbl.any (fun x => x.id == i)) =
            (updIds now rest).countP (fun i => tbl.any (fun x => x.id == i)) +
              (if tbl.any (fun x => x.id == e.id) then 1 else 0) := by
          rw [List.countP_cons]
        rw [h2]
        rw [Nat.add_comm]


theorem markPast_id (U : List Nat) (r : Event) : (markPast U r).id = r.id := by
  unfold markPast
  split <;> rfl

theorem applyUpds_eq_markPast :
    ∀ (ids : List Nat) (tbl : List Event), applyUpds tbl ids = tbl.map (markPast ids) := by
  intro ids
  induction ids with
  | nil =>
    intro tbl
    have : markPast [] = fun r : Event => r := by
      funext r
      unfold markPast
      rfl
    rw [this, List.map_id']
    rfl
  | cons i is ih =>
    intro tbl
    have h1 : applyUpds tbl (i :: is) = applyUpds (applyUpdate tbl i "past") is := rfl
    rw [h1, ih, applyUpdate]
    rw [List.map_map]
    apply List.map_congr_left
    intro r _
    simp only [Function.comp_apply]
    by_cases hr : (r.id == i) = true
    · rw [if_pos hr]
      unfold markPast
      have hc : (i :: is).contains r.id = true := by
        simp only [List.contains_cons]
        rw [beq_iff_eq.mp hr]
        simp [beq_self_eq_true]
      rw [if_pos hc]
      split <;> rfl
    · rw [if_neg hr]
      unfold markPast
      have hc : ((i :: is).contains r.id) = (is.contains r.id) := by
        simp only [List.contains_cons]
        have : (r.id == i) = false := Bool.not_eq_true _ |>.mp hr
        rw [this]
        simp
      rw [hc]

theorem fetchActive_markPast (U : List Nat) :
    ∀ (tbl : List Event),
      fetchActive (tbl.map (markPast U)) =
        (fetchActive tbl).filter (fun r => !(U.contains r.id)) := by
  intro tbl
  induction tbl with
  | nil => rfl
  | cons x xs ih =>
    unfold fetchActive at ih ⊢
    simp only [List.map_cons, List.filter_cons]
    by_cases hc : U.contains x.id = true
    · have hpast : markPast U x = { x with status := "past" } := by
        unfold markPast
        rw [if_pos hc]
      rw [hpast]
      have : (({ x with status := "past" } : Event).status == "active") = false := rfl
      rw [this]
      simp only [Bool.false_eq_true, if_false]
      by_cases hax : (x.status == "active") = true
      · rw [if_pos hax]
        simp only [List.filter_cons]
        rw [hc]
        simp only [Bool.not_true, Bool.false_eq_true, if_false]
        exact ih
      · rw [if_neg hax]
        exact ih
    · have hkeep : markPast U x = x := by
        unfold markPast
        rw [if_neg hc]
      rw [hkeep]
      by_cases hax : (x.status == "active") = true
      · rw [if_pos hax, if_pos hax]
        simp only [List.filter_cons]
        have : (!U.contains x.id) = true := by
          rw [Bool.not_eq_true _ |>.mp hc]
          rfl
        rw [this]
        simp only [if_true]
        rw [ih]
      · rw [if_neg hax, if_neg hax]
        exact ih


theorem updIds_subset (now : Nat) :
    ∀ (l : List Event) (i : Nat), i ∈ updIds now l → ∃ y ∈ l, y.id = i := by
  intro l
  induction l with
  | nil => intro i h; cases h
  | cons e rest ih =>
    intro i h
    unfold updIds at h
    cases hev : evaluateExpiry e now with
    | noChange =>
      rw [hev] at h
      obtain ⟨y, hy, hyi⟩ := ih i h
      exact ⟨y, List.mem_cons_of_mem e hy, hyi⟩
    | evalError m => rw [hev] at h; cases h
    | transitionToPast =>
      rw [hev] at h
      rcases List.mem_cons.mp h with h | h
      · exact ⟨e, List.mem_cons_self e rest, h.symm⟩
      · obtain ⟨y, hy, hyi⟩ := ih i h
        exact ⟨y, List.mem_cons_of_mem e hy, hyi⟩

theorem updIds_filter_nil (now : Nat) :
    ∀ (A : List Event), (A.map (fun e => e.id)).Nodup →
      updIds now (A.filter (fun r => !((updIds now A).contains r.id))) = [] := by
  intro A
  induction A with
  | nil => intro _; rfl
  | cons e rest ih =>
    intro hnd
    have hnd' : (rest.map (fun e => e.id)).Nodup := (List.nodup_cons.mp hnd).2
    have hmem : e.id ∉ rest.map (fun e => e.id) := (List.nodup_cons.mp hnd).1
    cases hev : evaluateExpiry e now with
    | evalError m =>
      have hU : updIds now (e :: rest) = [] := by
        unfold updIds
        rw [hev]
      rw [hU]
      have hfa : (e :: rest).filter (fun r => !(([] : List Nat).contains r.id)) = e :: rest := by
        apply List.filter_eq_self.mpr
        intro a _
        rfl
      rw [hfa]
      unfold updIds
      rw [hev]
    | noChange =>
      have hU : updIds now (e :: rest) = updIds now rest := by
        conv_lhs => unfold updIds
        rw [hev]
      rw [hU]
      have hke : (!((updIds now rest).contains e.id)) = true := by
        by_cases hc : (updIds now rest).contains e.id = true
        · exfalso
          have hc' : e.id ∈ updIds now rest := by simpa using hc
          obtain ⟨y, hy, hyi⟩ := updIds_subset now rest e.id hc' 
          exact hmem (List.mem_map.mpr ⟨y, hy, hyi⟩)
        · rw [Bool.not_eq_true _ |>.mp hc]
          rfl
      rw [List.filter_cons, hke]
      simp only [if_true]
      unfold updIds
      rw [hev]
      exact ih hnd'
    | transitionToPast =>
      have hU : updIds now (e :: rest) = e.id :: updIds now rest := by
        conv_lhs => unfold updIds
        rw [hev]
      rw [hU]
      rw [List.filter_cons]
      have hke : (!((e.id :: updIds now rest).contains e.id)) = false := by
        simp [List.contains_cons]
      rw [hke]
      simp only [Bool.false_eq_true, if_false]
      have hcongr : rest.filter (fun r => !((e.id :: updIds now rest).contains r.id)) =
          rest.filter (fun r => !((updIds now rest).contains r.id)) := by
        apply List.filter_congr
        intro a ha
        simp only [List.contains_cons]
        have : (a.id == e.id) = false := by
          by_cases hc : (a.id == e.id) = true
          · exfalso
            exact hmem (List.mem_map.mpr ⟨a, ha, beq_iff_eq.mp hc⟩)
          · exact Bool.not_eq_true _ |>.mp hc
        rw [this]
        simp
      rw [hcongr]
      exact ih hnd'


/-- Claim C7 (amended): for a store with pairwise-distinct event ids,
running the sweep twice at the same instant never updates anything on the
second run — the second run's post-state equals the first run's post-state
and, whenever the second run reports success, its report carries
`updated = 0`.  (When the active batch contains a malformed date/time the
runs fail with `success = false` and report no count at all, so the literal
field reading `updated = 0` of the original claim does not hold there.) -/
theorem claim_C7_amended (tbl : List Event) (now : Nat)
    (hnd : (tbl.map (fun e => e.id)).Nodup) :
    (sweep (sweep tbl now).1 now).1 = (sweep tbl now).1
    ∧ ((sweep (sweep tbl now).1 now).2.success = true →
        (sweep (sweep tbl now).1 now).2.updated = some 0) := by
  by_cases h0 : (fetchActive tbl).isEmpty = true
  · have hs1 : sweep tbl now = (tbl, ⟨true, "No active events to check", none, some 0⟩) := by
      unfold sweep
      rw [if_pos h0]
    rw [hs1]
    dsimp only
    rw [hs1]
    exact ⟨rfl, fun _ => rfl⟩
  · have hs1 : (sweep tbl now).1 = tbl.map (markPast (updIds now (fetchActive tbl))) := by
      unfold sweep
      rw [if_neg h0, processEvents_eq]
      cases hfe : firstErr now (fetchActive tbl) with
      | some m => exact applyUpds_eq_markPast _ tbl
      | none => exact applyUpds_eq_markPast _ tbl
    have hndA : ((fetchActive tbl).map (fun e => e.id)).Nodup := by
      have hsub : (fetchActive tbl).Sublist tbl := List.filter_sublist tbl
      exact List.Nodup.sublist (hsub.map (fun e => e.id)) hnd
    have hA1 : fetchActive (tbl.map (markPast (updIds now (fetchActive tbl)))) =
        (fetchActive tbl).filter
          (fun r => !((updIds now (fetchActive tbl)).contains r.id)) :=
      fetchActive_markPast _ tbl
    have hU1 : updIds now ((fetchActive tbl).filter
        (fun r => !((updIds now (fetchActive tbl)).contains r.id))) = [] :=
      updIds_filter_nil now (fetchActive tbl) hndA
    rw [hs1]
    by_cases h2 : (fetchActive (tbl.map (markPast (updIds now (fetchActive tbl))))).isEmpty = true
    · unfold sweep
      rw [if_pos h2]
      exact ⟨rfl, fun _ => rfl⟩
    · unfold sweep
      rw [if_neg h2, processEvents_eq, hA1, hU1]
      cases hfe : firstErr now ((fetchActive tbl).filter
          (fun r => !((updIds now (fetchActive tbl)).contains r.id))) with
      | some m => exact ⟨rfl, fun h => by cases h⟩
      | none => exact ⟨rfl, fun _ => rfl⟩


theorem updIds_cons (now : Nat) (e : Event) (rest : List Event) :
    updIds now (e :: rest) =
      (match evaluateExpiry e now with
       | Decision.noChange => updIds now rest
       | Decision.evalError _ => []
       | Decision.transitionToPast => e.id :: updIds now rest) := rfl

theorem firstErr_cons (now : Nat) (e : Event) (rest : List Event) :
    firstErr now (e :: rest) =
      (match evaluateExpiry e now with
       | Decision.evalError m => some m
       | _ => firstErr now rest) := rfl

theorem updIds_append_err (now : Nat) (e : Event) (l2 : List Event) (m : String)
    (he : evaluateExpiry e now = Decision.evalError m) :
    ∀ (l1 : List Event), firstErr now l1 = none →
      updIds now (l1 ++ e :: l2) = updIds now l1 := by
  intro l1
  induction l1 with
  | nil =>
    intro _
    rw [List.nil_append, updIds_cons, he]
    rfl
  | cons x xs ih =>
    intro h1
    rw [List.cons_append, updIds_cons, updIds_cons]
    cases hev : evaluateExpiry x now with
    | evalError msg =>
      exfalso
      rw [firstErr_cons, hev] at h1
      cases h1
    | noChange =>
      refine ih ?_
      rw [firstErr_cons, hev] at h1
      exact h1
    | transitionToPast =>
      have h1' : firstErr now xs = none := by
        rw [firstErr_cons, hev] at h1
        exact h1
      exact congrArg (fun ys => x.id :: ys) (ih h1')

theorem firstErr_append_err (now : Nat) (e : Event) (l2 : List Event) (m : String)
    (he : evaluateExpiry e now = Decision.evalError m) :
    ∀ (l1 : List Event), firstErr now l1 = none →
      firstErr now (l1 ++ e :: l2) = some m := by
  intro l1
  induction l1 with
  | nil =>
    intro _
    rw [List.nil_append, firstErr_cons, he]
  | cons x xs ih =>
    intro h1
    rw [List.cons_append, firstErr_cons]
    cases hev : evaluateExpiry x now with
    | evalError msg =>
      exfalso
      rw [firstErr_cons, hev] at h1
      cases h1
    | noChange =>
      refine ih ?_
      rw [firstErr_cons, hev] at h1
      exact h1
    | transitionToPast =>
      refine ih ?_
      rw [firstErr_cons, hev] at h1
      exact h1


/-- Claim C3 (amended): a failure on a single event is caught only by the
batch-level handler — the sweep stops at the first event whose schedule
fails to resolve, returns `success = false` with no counts, keeps the
updates already written for earlier events, and leaves every later event
of the batch unevaluated and untouched. -/
theorem claim_C3_amended (tbl : List Event) (now : Nat) (l1 l2 : List Event)
    (e : Event) (m : String)
    (hfa : fetchActive tbl = l1 ++ e :: l2)
    (h1 : firstErr now l1 = none)
    (he : evaluateExpiry e now = Decision.evalError m) :
    sweep tbl now = (applyUpds tbl (updIds now l1),
      ⟨false, "Error updating event statuses: " ++ m, none, none⟩)
    ∧ ∀ x ∈ l2, x.id ∉ l1.map (fun y => y.id) →
        (applyUpds tbl (updIds now l1)).filter (fun r => r.id == x.id) =
          tbl.filter (fun r => r.id == x.id) := by
  constructor
  · have hne : (fetchActive tbl).isEmpty = false := by
      rw [hfa]
      cases l1 <;> rfl
    unfold sweep
    rw [if_neg (by rw [hne]; exact Bool.false_ne_true), processEvents_eq, hfa,
        updIds_append_err now e l2 m he l1 h1, firstErr_append_err now e l2 m he l1 h1]
  · intro x hx hnx
    rw [applyUpds_eq_markPast, List.filter_map]
    have hpf : ∀ r ∈ tbl,
        ((fun r : Event => r.id == x.id) ∘ markPast (updIds now l1)) r =
          (fun r : Event => r.id == x.id) r := by
      intro r _
      simp only [Function.comp_apply, markPast_id]
    rw [List.filter_congr hpf]
    have hxid : x.id ∉ updIds now l1 := by
      intro hc
      obtain ⟨y, hy, hyi⟩ := updIds_subset now l1 x.id hc
      exact hnx (List.mem_map.mpr ⟨y, hy, hyi⟩)
    have hid : ∀ r ∈ tbl.filter (fun r => r.id == x.id),
        markPast (updIds now l1) r = r := by
      intro r hr
      have hrid : r.id = x.id := beq_iff_eq.mp (List.mem_filter.mp hr).2
      unfold markPast
      rw [if_neg ?hc]
      case hc =>
        rw [hrid]
        intro hcon
        exact hxid (by simpa using hcon)
    rw [List.map_congr_left hid, List.map_id']

theorem parseDate_of_empty (s : String) (hs : s.data = []) :
    parseDate s = Except.error "MalformedDateError" := by
  unfold parseDate
  rw [hs]
  rfl

theorem resolveInstant_ok_date_nonempty (d : String) (t? : Option String) (dt : Nat)
    (h : resolveInstant d t? = Except.ok dt) : d.data ≠ [] := by
  intro hd
  have hpd := parseDate_of_empty d hd
  unfold resolveInstant at h
  split at h
  · unfold resolveTimed at h
    cases h0 : pyInt ((splitChar ':' (t?.getD "").data).headD []) with
    | none => rw [h0] at h; cases h
    | some hh =>
      rw [h0] at h
      cases h1 : (if (splitChar ':' (t?.getD "").data).length > 1 then
          pyInt ((splitChar ':' (t?.getD "").data).getD 1 []) else some 0) with
      | none => rw [h1] at h; cases h
      | some mm =>
        rw [h1] at h
        cases h2 : (if (splitChar ':' (t?.getD "").data).length > 2 then
            pyInt ((splitChar ':' (t?.getD "").data).getD 2 []) else some 0) with
        | none => rw [h2] at h; cases h
        | some ss =>
          rw [h2] at h
          rw [hpd] at h
          cases h
  · rw [hpd] at h
    cases h


theorem processEvents_cons (now : Nat) (e : Event) (rest tbl : List Event) :
    processEvents now (e :: rest) tbl =
      (match evaluateExpiry e now with
       | Decision.noChange => processEvents now rest tbl
       | Decision.evalError m => (tbl, Except.error m)
       | Decision.transitionToPast =>
         match processEvents now rest (applyUpdate tbl e.id "past") with
         | (t2, Except.ok n) =>
           (t2, Except.ok ((if tbl.any (fun x => x.id == e.id) then 1 else 0) + n))
         | (t2, Except.error m) => (t2, Except.error m)) := rfl

theorem sweep_singleton (e : Event) (now : Nat) :
    (sweep [e] now).1 =
      (match sweepDecision e now with
       | Decision.transitionToPast => [{ e with status := "past" }]
       | _ => [e]) := by
  by_cases hst : (e.status == "active") = true
  · have hfa : fetchActive [e] = [e] := by
      unfold fetchActive
      rw [List.filter_cons, if_pos hst]
      rfl
    unfold sweep
    rw [hfa]
    rw [if_neg (by simp)]
    rw [processEvents_cons]
    unfold sweepDecision
    rw [if_pos hst]
    cases hev : evaluateExpiry e now with
    | noChange => rfl
    | evalError m => rfl
    | transitionToPast =>
      show applyUpdate [e] e.id "past" = [{ e with status := "past" }]
      unfold applyUpdate
      rw [List.map_cons, List.map_nil, if_pos (beq_self_eq_true e.id)]
  · have hfa : fetchActive [e] = [] := by
      unfold fetchActive
      rw [List.filter_cons, if_neg hst]
      rfl
    unfold sweep
    rw [hfa]
    rw [if_pos (show ([] : List Event).isEmpty = true from rfl)]
    unfold sweepDecision
    rw [if_neg hst]

/-- Claim C4 (amended): for an event whose schedule resolves, the sweep's
per-event decision is `TransitionToPast` — persisting status `past` —
exactly when the event's status is `active` and the resolved instant is
strictly earlier than `now`; otherwise, including the boundary case where
the resolved instant equals `now`, the event is left unchanged.  Events
with a non-active status never reach the loop (the fetch filters on
`status == 'active'`). -/
theorem claim_C4_amended (e : Event) (now dt : Nat)
    (h : resolveInstant e.scheduled_date e.scheduled_time = Except.ok dt) :
    sweepDecision e now =
      (if e.status = "active" ∧ dt < now then Decision.transitionToPast
       else Decision.noChange)
    ∧ (sweep [e] now).1 =
      (if e.status = "active" ∧ dt < now then [{ e with status := "past" }]
       else [e]) := by
  have hdne : e.scheduled_date.data ≠ [] :=
    resolveInstant_ok_date_nonempty _ _ _ h
  have hguard : (e.scheduled_date.data == ([] : List Char)) = false := by
    by_cases hc : (e.scheduled_date.data == ([] : List Char)) = true
    · exact absurd (beq_iff_eq.mp hc) hdne
    · exact Bool.not_eq_true _ |>.mp hc
  have hdecision : sweepDecision e now =
      (if e.status = "active" ∧ dt < now then Decision.transitionToPast
       else Decision.noChange) := by
    by_cases hst : e.status = "active"
    · have hncan : (e.status == "cancelled") = false := by
        rw [hst]; rfl
      have hdec : evaluateExpiry e now =
          (if now > dt then Decision.transitionToPast else Decision.noChange) := by
        unfold evaluateExpiry
        rw [if_neg (by rw [hncan]; exact Bool.false_ne_true),
            if_neg (by rw [hguard]; exact Bool.false_ne_true), h]
      have hsd : sweepDecision e now = evaluateExpiry e now := by
        unfold sweepDecision
        rw [if_pos (by rw [hst]; rfl)]
      by_cases hlt : dt < now
      · rw [hsd, hdec, if_pos hlt, if_pos ⟨hst, hlt⟩]
      · rw [hsd, hdec, if_neg hlt, if_neg (fun hc => hlt hc.2)]
    · have hsd : sweepDecision e now = Decision.noChange := by
        unfold sweepDecision
        rw [if_neg (fun hc => hst (beq_iff_eq.mp hc))]
      rw [hsd, if_neg (fun hc => hst hc.1)]
  refine ⟨hdecision, ?_⟩
  rw [sweep_singleton, hdecision]
  by_cases hcond : e.status = "active" ∧ dt < now
  · rw [if_pos hcond, if_pos hcond]
  · rw [if_neg hcond, if_neg hcond]


/-- Counterexample to claim C3 as stated: a batch holding a malformed-date
event followed by an expired active event.  The expired event's own
decision would be `TransitionToPast`, yet the sweep fails wholesale and
leaves the store unchanged — the bad record blocked the rest of the
batch. -/
theorem claim_C3_counterexample :
    (sweep badThenDueTbl jan2024).1 = badThenDueTbl
    ∧ (sweep badThenDueTbl jan2024).2.success = false
    ∧ evaluateExpiry ⟨2, 1, "due", "2020-01-01", none, "active"⟩ jan2024 =
        Decision.transitionToPast :=
  ⟨by decide, by decide, by decide⟩

/-- Witness for the amended C3 at the concrete batch: the sweep returns the
untouched store and the batch-level failure report. -/
theorem claim_C3_amended_witness :
    sweep badThenDueTbl jan2024 = (badThenDueTbl,
      ⟨false, "Error updating event statuses: MalformedDateError", none, none⟩) :=
  (claim_C3_amended badThenDueTbl jan2024 []
    [⟨2, 1, "due", "2020-01-01", none, "active"⟩]
    ⟨1, 1, "bad", "bad-date", none, "active"⟩ "MalformedDateError"
    (by decide) rfl (by decide)).1

/-- Counterexample to claim C4 as stated: an active event whose resolved
instant equals `now` exactly.  The claim demands `TransitionToPast`
(`NoChange` only when the instant is strictly greater than `now`), but the
code's `now > event_datetime` comparison leaves the event untouched. -/
theorem claim_C4_counterexample :
    resolveInstant tenAmEvent.scheduled_date tenAmEvent.scheduled_time =
      Except.ok tenAmJun1
    ∧ tenAmEvent.status = "active"
    ∧ sweepDecision tenAmEvent tenAmJun1 = Decision.noChange
    ∧ (sweep [tenAmEvent] tenAmJun1).1 = [tenAmEvent] :=
  ⟨by decide, rfl, by decide, by decide⟩

/-- Witness for the amended C4: one day after its scheduled time, the event
is transitioned and `past` is persisted. -/
theorem claim_C4_amended_witness :
    sweepDecision tenAmEvent (instAt 2024 6 2 0 0 0) = Decision.transitionToPast
    ∧ (sweep [tenAmEvent] (instAt 2024 6 2 0 0 0)).1 =
        [{ tenAmEvent with status := "past" }] := by
  have h := claim_C4_amended tenAmEvent (instAt 2024 6 2 0 0 0) tenAmJun1 (by decide)
  refine ⟨?_, ?_⟩
  · rw [h.1, if_pos ⟨rfl, by decide⟩]
  · rw [h.2, if_pos ⟨rfl, by decide⟩]

/-- Counterexample to claim C7 as stated: on a store whose only active
event has a malformed date, the second sweep run reports `success = false`
with no `updated` field at all, not `updated = 0`. -/
theorem claim_C7_counterexample :
    (sweep (sweep badThenDueTbl jan2024).1 jan2024).2.updated ≠ some 0 := by
  decide

/-- Witness for the amended C7 at a concrete store with one expired and one
future event. -/
theorem claim_C7_amended_witness :
    (sweep (sweep dueAndFutureTbl jan2024).1 jan2024).1 =
      (sweep dueAndFutureTbl jan2024).1
    ∧ ((sweep (sweep dueAndFutureTbl jan2024).1 jan2024).2.success = true →
        (sweep (sweep dueAndFutureTbl jan2024).1 jan2024).2.updated = some 0) :=
  claim_C7_amended dueAndFutureTbl jan2024 (by decide)

end W3
